import Mathlib

/-!
# Verification of the code996 work-time analysis core

A shallow embedding, in Lean 4, of the algorithmic core of the `code996`
repository (a TypeScript tool that diagnoses a project's overtime culture
from its commit-time histograms), together with theorems checking the
repository's natural-language specification against the code.

Conventions of the embedding:
* JavaScript numbers are modelled as rationals (`ℚ`); the places where the
  source can produce `NaN`/`Infinity` are modelled separately with the
  `JSNum` type, whose arithmetic follows IEEE-754 special-value rules.
* `Math.round` is `jsRound q = ⌊q + 1/2⌋` (exactly JS round-half-up) and
  `Math.ceil` is `jsCeil q = ⌈q⌉`, both returning `ℤ`.
* `ℚ` division by zero is Lean's `q / 0 = 0` convention; every theorem that
  relies on a quotient carries hypotheses making the divisor nonzero, so the
  convention is never load-bearing except where explicitly noted.
-/

/-- JavaScript `Math.round`: round half toward positive infinity. -/
def jsRound (q : ℚ) : ℤ := ⌊q + 1 / 2⌋

/-- JavaScript `Math.ceil`. -/
def jsCeil (q : ℚ) : ℤ := ⌈q⌉

/-- JavaScript `Math.floor`. -/
def jsFloor (q : ℚ) : ℤ := ⌊q⌋

theorem jsRound_eq_of (q : ℚ) (z : ℤ) (h₁ : (z : ℚ) ≤ q + 1 / 2)
    (h₂ : q + 1 / 2 < (z : ℚ) + 1) : jsRound q = z := by
  rw [jsRound]; exact Int.floor_eq_iff.mpr ⟨h₁, h₂⟩

theorem jsCeil_eq_of (q : ℚ) (z : ℤ) (h₁ : (z : ℚ) - 1 < q)
    (h₂ : q ≤ (z : ℚ)) : jsCeil q = z := by
  rw [jsCeil]; exact Int.ceil_eq_iff.mpr ⟨h₁, h₂⟩

theorem jsFloor_eq_of (q : ℚ) (z : ℤ) (h₁ : (z : ℚ) ≤ q)
    (h₂ : q < (z : ℚ) + 1) : jsFloor q = z := by
  rw [jsFloor]; exact Int.floor_eq_iff.mpr ⟨h₁, h₂⟩

theorem jsCeil_mono {a b : ℚ} (h : a ≤ b) : jsCeil a ≤ jsCeil b :=
  Int.ceil_mono h

/-- `TimeCount` from `src/types/git-types.ts`: one labelled histogram bucket. -/
structure TimeCount where
  time : String
  count : ℚ
  deriving DecidableEq, Repr

/-- `WorkTimeData` (input of `calculate996Index`): `workHourPl` is the
normal/overtime split, `workWeekPl` the weekday/weekend split, `hourData`
the hour histogram the source measures sparsity on. -/
structure WorkTimeData where
  workHourPl : List TimeCount
  workWeekPl : List TimeCount
  hourData : List TimeCount
  deriving DecidableEq, Repr

/-- `Result996` from `src/types/git-types.ts`. The source's `number` fields
always hold integers here (`Math.ceil`/`Math.round` outputs), so they are
embedded as `ℤ`. -/
structure Result996 where
  index996 : ℤ
  index996Str : String
  overTimeRadio : ℤ
  deriving DecidableEq, Repr

/-- `y` of `calculate996Index`: `workHourPl[0].count`, the normal-hour
commit count. -/
def dataY (d : WorkTimeData) : ℚ := (d.workHourPl.getD 0 ⟨"", 0⟩).count

/-- `x` of `calculate996Index`: `workHourPl[1].count`, the overtime-hour
commit count. -/
def dataX (d : WorkTimeData) : ℚ := (d.workHourPl.getD 1 ⟨"", 0⟩).count

/-- `m` of `calculate996Index`: `workWeekPl[0].count`, the weekday commit
count. -/
def dataM (d : WorkTimeData) : ℚ := (d.workWeekPl.getD 0 ⟨"", 0⟩).count

/-- `n` of `calculate996Index`: `workWeekPl[1].count`, the weekend commit
count. -/
def dataN (d : WorkTimeData) : ℚ := (d.workWeekPl.getD 1 ⟨"", 0⟩).count

/-- `overTimeAmendCount = Math.round(x + (y * n) / (m + n))` from
`calculate996Index`. -/
def overTimeAmendCount (d : WorkTimeData) : ℤ :=
  jsRound (dataX d + dataY d * dataN d / (dataM d + dataN d))

/-- `totalCount = y + x` from `calculate996Index`. -/
def totalCount996 (d : WorkTimeData) : ℚ := dataY d + dataX d

/-- The primary ratio `Math.ceil((overTimeAmendCount / totalCount) * 100)`
from `calculate996Index`, before the sparse-data special case. -/
def primaryRadio (d : WorkTimeData) : ℤ :=
  jsCeil ((overTimeAmendCount d : ℚ) / totalCount996 d * 100)

/-- `getUn996Radio` from `src/core/calculator.ts`: the negative
under-saturation ratio substituted for sparse data.
(`averageCommit = totalCount / hourData.length`,
`mockTotalCount = averageCommit * 9`,
`radio = Math.ceil((totalCount / mockTotalCount) * 100) - 100`.) -/
def getUn996Radio (hourData : List TimeCount) (totalCount : ℚ) : ℤ :=
  jsCeil (totalCount / (totalCount / (hourData.length : ℚ) * 9) * 100) - 100

/-- The `overTimeRadio` variable of `calculate996Index` after the
`overTimeRadio === 0 && hourData.length < 9` special case. -/
def overTimeRadio996 (d : WorkTimeData) : ℤ :=
  if primaryRadio d = 0 ∧ d.hourData.length < 9 then
    getUn996Radio d.hourData (totalCount996 d)
  else primaryRadio d

/-- `generateDescription` from `src/core/calculator.ts`: the 7 fixed tiers. -/
def generateDescription (index996 : ℤ) : String :=
  if index996 ≤ 0 then "非常健康，是理想的專案情況"
  else if index996 ≤ 21 then "很健康，加班非常少"
  else if index996 ≤ 48 then "還行，偶爾加班，能接受"
  else if index996 ≤ 63 then "較差，加班文化比較嚴重"
  else if index996 ≤ 100 then "很差，接近996的程度"
  else if index996 ≤ 130 then "非常差，加班文化嚴重"
  else "加班文化非常嚴重，福報已經修滿了"

/-- `calculate996Index` from `src/core/calculator.ts`: the 996 index is the
(possibly substituted) overtime ratio times 3. -/
def calculate996Index (d : WorkTimeData) : Result996 :=
  { index996 := overTimeRadio996 d * 3
    index996Str := generateDescription (overTimeRadio996 d * 3)
    overTimeRadio := overTimeRadio996 d }

/-- Builds the `WorkTimeData` shape the source always passes to
`calculate996Index` (`workHourPl`/`workWeekPl` are 2-element tuples in the
TS type `WorkTimePl`; the `time` labels are never read by the calculator). -/
def mkWorkTimeData (y x m n : ℚ) (hourData : List TimeCount) : WorkTimeData :=
  { workHourPl := [⟨"工作", y⟩, ⟨"加班", x⟩]
    workWeekPl := [⟨"工作日", m⟩, ⟨"週末", n⟩]
    hourData := hourData }

theorem dataY_mk (y x m n : ℚ) (hd : List TimeCount) :
    dataY (mkWorkTimeData y x m n hd) = y := rfl

theorem dataX_mk (y x m n : ℚ) (hd : List TimeCount) :
    dataX (mkWorkTimeData y x m n hd) = x := rfl

theorem dataM_mk (y x m n : ℚ) (hd : List TimeCount) :
    dataM (mkWorkTimeData y x m n hd) = m := rfl

theorem dataN_mk (y x m n : ℚ) (hd : List TimeCount) :
    dataN (mkWorkTimeData y x m n hd) = n := rfl

/-- C1: on the primary path (positive total commits, positive
weekday+weekend commits, sparse-data substitution not taken), the overtime
ratio returned by `calculate996Index` is
`ceil(round(x + y·n/(m+n)) / (x+y) · 100)` and the index is that ratio
times 3. -/
theorem calculate996Index_primary (y x m n : ℚ) (hd : List TimeCount)
    (hxy : 0 < x + y) (hmn : 0 < m + n)
    (hprimary : ¬(primaryRadio (mkWorkTimeData y x m n hd) = 0 ∧ hd.length < 9)) :
    (calculate996Index (mkWorkTimeData y x m n hd)).overTimeRadio
        = jsCeil ((jsRound (x + y * n / (m + n)) : ℚ) / (x + y) * 100)
      ∧ (calculate996Index (mkWorkTimeData y x m n hd)).index996
        = jsCeil ((jsRound (x + y * n / (m + n)) : ℚ) / (x + y) * 100) * 3 := by
  have hradio : overTimeRadio996 (mkWorkTimeData y x m n hd)
      = jsCeil ((jsRound (x + y * n / (m + n)) : ℚ) / (x + y) * 100) := by
    rw [overTimeRadio996, if_neg]
    · simp only [primaryRadio, overTimeAmendCount, totalCount996, dataX_mk, dataY_mk,
        dataM_mk, dataN_mk, add_comm y x]
    · simpa [mkWorkTimeData] using hprimary
  exact ⟨hradio, by rw [calculate996Index]; rw [hradio]⟩

/-- Witness for C1 at the spec's Example B: `x=0, y=100, m=100, n=100`
gives overtime ratio 50 and index 150. -/
theorem calculate996Index_primary_witness :
    (0:ℚ) < 0 + 100 ∧ (0:ℚ) < 100 + 100 ∧
    (calculate996Index (mkWorkTimeData 100 0 100 100 [])).overTimeRadio = 50 ∧
    (calculate996Index (mkWorkTimeData 100 0 100 100 [])).index996 = 150 := by
  have hr : jsRound ((0:ℚ) + 100 * 100 / (100 + 100)) = 50 :=
    jsRound_eq_of _ 50 (by norm_num) (by norm_num)
  have hc : jsCeil (((50:ℤ) : ℚ) / (0 + 100) * 100) = 50 :=
    jsCeil_eq_of _ 50 (by norm_num) (by norm_num)
  have hp : primaryRadio (mkWorkTimeData 100 0 100 100 []) = 50 := by
    rw [primaryRadio, overTimeAmendCount, totalCount996, dataX_mk, dataY_mk, dataM_mk,
      dataN_mk, hr, show ((100:ℚ) + 0) = 0 + 100 by ring, hc]
  have h := calculate996Index_primary 100 0 100 100 []
    (by norm_num) (by norm_num) (by rw [hp]; simp)
  refine ⟨by norm_num, by norm_num, ?_, ?_⟩
  · rw [h.1, hr, hc]
  · rw [h.2, hr, hc]; norm_num

theorem overTimeRadio996_mk (y x m n : ℚ) (hd : List TimeCount) :
    overTimeRadio996 (mkWorkTimeData y x m n hd)
      = if primaryRadio (mkWorkTimeData y x m n hd) = 0 ∧ hd.length < 9 then
          getUn996Radio hd (y + x)
        else primaryRadio (mkWorkTimeData y x m n hd) := rfl

/-- For positive totals the under-saturation ratio does not depend on the
total: the average-per-bucket estimate cancels, leaving `⌈100·len/9⌉ − 100`. -/
theorem getUn996Radio_eq (hd : List TimeCount) (t : ℚ) (ht : 0 < t)
    (hlen : hd.length ≠ 0) :
    getUn996Radio hd t = jsCeil ((hd.length : ℚ) / 9 * 100) - 100 := by
  rw [getUn996Radio]
  congr 2
  have hl : ((hd.length : ℚ)) ≠ 0 := Nat.cast_ne_zero.mpr hlen
  field_simp
  ring

/-- The under-saturation ratio is always negative when fewer than 9 hour
buckets are present. (With zero buckets both the source — via
`Infinity` arithmetic — and this embedding — via `q / 0 = 0` — give `-100`.) -/
theorem getUn996Radio_neg (hd : List TimeCount) (t : ℚ) (ht : 0 < t)
    (hlen : hd.length < 9) : getUn996Radio hd t < 0 := by
  rcases Nat.eq_zero_or_pos hd.length with h0 | hpos
  · rw [getUn996Radio, h0]
    norm_num [jsCeil]
  · rw [getUn996Radio_eq hd t ht (Nat.pos_iff_ne_zero.mp hpos)]
    have h8 : ((hd.length : ℚ)) ≤ 8 := by
      exact_mod_cast Nat.le_of_lt_succ hlen
    have hle : ((hd.length : ℚ)) / 9 * 100 ≤ 800 / 9 := by linarith
    have h89 : jsCeil ((800 : ℚ) / 9) = 89 := jsCeil_eq_of _ 89 (by norm_num) (by norm_num)
    have := jsCeil_mono hle
    omega

/-- C2: when the primary ratio is 0 and fewer than 9 hour buckets carry the
histogram, `calculate996Index` substitutes the under-saturation ratio
`ceil(actual/synthetic·100) − 100` (synthetic = average-per-bucket × 9),
a negative value, and returns it as-is (the index is just 3 times it). -/
theorem calculate996Index_undersaturation (y x m n : ℚ) (hd : List TimeCount)
    (hxy : 0 < x + y) (hmn : 0 < m + n)
    (h0 : primaryRadio (mkWorkTimeData y x m n hd) = 0) (hlen : hd.length < 9) :
    (calculate996Index (mkWorkTimeData y x m n hd)).overTimeRadio
        = jsCeil ((x + y) / ((x + y) / (hd.length : ℚ) * 9) * 100) - 100
      ∧ (calculate996Index (mkWorkTimeData y x m n hd)).overTimeRadio < 0
      ∧ (calculate996Index (mkWorkTimeData y x m n hd)).index996
        = (calculate996Index (mkWorkTimeData y x m n hd)).overTimeRadio * 3 := by
  have hyx : (0:ℚ) < y + x := by linarith
  have hradio : (calculate996Index (mkWorkTimeData y x m n hd)).overTimeRadio
      = getUn996Radio hd (y + x) := by
    show overTimeRadio996 (mkWorkTimeData y x m n hd) = _
    rw [overTimeRadio996_mk, if_pos ⟨h0, hlen⟩]
  refine ⟨?_, ?_, rfl⟩
  · rw [hradio, getUn996Radio, add_comm y x]
  · rw [hradio]
    exact getUn996Radio_neg hd (y + x) hyx hlen

/-- Witness for C2: `y=10, x=0, m=10, n=0` with 2 active hour buckets has
primary ratio 0, so the result is `⌈10/((10/2)·9)·100⌉ − 100 = -77 < 0`. -/
theorem calculate996Index_undersaturation_witness :
    (0:ℚ) < 0 + 10 ∧ (0:ℚ) < 10 + 0 ∧
    primaryRadio (mkWorkTimeData 10 0 10 0 [⟨"9", 5⟩, ⟨"10", 5⟩]) = 0 ∧
    [(⟨"9", 5⟩ : TimeCount), ⟨"10", 5⟩].length < 9 ∧
    (calculate996Index (mkWorkTimeData 10 0 10 0 [⟨"9", 5⟩, ⟨"10", 5⟩])).overTimeRadio = -77 ∧
    (calculate996Index (mkWorkTimeData 10 0 10 0 [⟨"9", 5⟩, ⟨"10", 5⟩])).index996 = -231 := by
  have hr : jsRound ((0:ℚ) + 10 * 0 / (10 + 0)) = 0 :=
    jsRound_eq_of _ 0 (by norm_num) (by norm_num)
  have hp : primaryRadio (mkWorkTimeData 10 0 10 0 [⟨"9", 5⟩, ⟨"10", 5⟩]) = 0 := by
    rw [primaryRadio, overTimeAmendCount, totalCount996, dataX_mk, dataY_mk, dataM_mk,
      dataN_mk, hr]
    exact jsCeil_eq_of _ 0 (by norm_num) (by norm_num)
  have h := calculate996Index_undersaturation 10 0 10 0 [⟨"9", 5⟩, ⟨"10", 5⟩]
    (by norm_num) (by norm_num) hp (by norm_num)
  have hval : jsCeil (((0:ℚ) + 10) / ((0 + 10) / ((2:ℕ) : ℚ) * 9) * 100) - 100 = -77 := by
    have : jsCeil (((0:ℚ) + 10) / ((0 + 10) / ((2:ℕ) : ℚ) * 9) * 100) = 23 :=
      jsCeil_eq_of _ 23 (by norm_num) (by norm_num)
    rw [this]; norm_num
  refine ⟨by norm_num, by norm_num, hp, by norm_num, ?_, ?_⟩
  · rw [h.1]
    exact_mod_cast hval
  · rw [h.2.2, h.1]
    rw [show (([(⟨"9", 5⟩ : TimeCount), ⟨"10", 5⟩]).length : ℚ) = ((2:ℕ) : ℚ) by norm_num]
    rw [hval]; norm_num

theorem primaryRadio_nonneg (y x m n : ℕ) (hd : List TimeCount)
    (hmn : 0 < m + n) :
    0 ≤ primaryRadio (mkWorkTimeData (y:ℚ) (x:ℚ) (m:ℚ) (n:ℚ) hd) := by
  rw [primaryRadio, jsCeil]
  apply Int.ceil_nonneg
  have hr : (0:ℤ) ≤ overTimeAmendCount (mkWorkTimeData (y:ℚ) (x:ℚ) (m:ℚ) (n:ℚ) hd) := by
    rw [overTimeAmendCount, dataX_mk, dataY_mk, dataM_mk, dataN_mk, jsRound]
    apply Int.le_floor.mpr
    push_cast
    have h1 : (0:ℚ) ≤ (x:ℚ) := by positivity
    have h2 : (0:ℚ) ≤ (y:ℚ) * (n:ℚ) / ((m:ℚ) + (n:ℚ)) := by positivity
    linarith
  have ht : (0:ℚ) ≤ totalCount996 (mkWorkTimeData (y:ℚ) (x:ℚ) (m:ℚ) (n:ℚ) hd) := by
    rw [totalCount996, dataY_mk, dataX_mk]; positivity
  positivity

/-- One unit more of overtime commits never lowers the primary ratio. -/
theorem primaryRadio_step (y x m n : ℕ) (hd : List TimeCount) (hmn : 0 < m + n) :
    primaryRadio (mkWorkTimeData (y:ℚ) (x:ℚ) (m:ℚ) (n:ℚ) hd)
      ≤ primaryRadio (mkWorkTimeData (y:ℚ) ((x:ℚ) + 1) (m:ℚ) (n:ℚ) hd) := by
  have hmnq : (0:ℚ) < (m:ℚ) + (n:ℚ) := by exact_mod_cast hmn
  set c : ℚ := (y:ℚ) * (n:ℚ) / ((m:ℚ) + (n:ℚ)) with hc
  have hc0 : 0 ≤ c := by positivity
  have hcy : c ≤ (y:ℚ) := by
    rw [hc, div_le_iff hmnq]
    have hn : (n:ℚ) ≤ (m:ℚ) + (n:ℚ) := by
      have : (0:ℚ) ≤ (m:ℚ) := by positivity
      linarith
    calc (y:ℚ) * (n:ℚ) ≤ (y:ℚ) * ((m:ℚ) + (n:ℚ)) := by
          apply mul_le_mul_of_nonneg_left hn (by positivity)
      _ = (y:ℚ) * ((m:ℚ) + (n:ℚ)) := rfl
  have hr1 : overTimeAmendCount (mkWorkTimeData (y:ℚ) (x:ℚ) (m:ℚ) (n:ℚ) hd)
      = jsRound ((x:ℚ) + c) := by
    rw [overTimeAmendCount, dataX_mk, dataY_mk, dataM_mk, dataN_mk]
  have hr2 : overTimeAmendCount (mkWorkTimeData (y:ℚ) ((x:ℚ) + 1) (m:ℚ) (n:ℚ) hd)
      = jsRound ((x:ℚ) + c) + 1 := by
    rw [overTimeAmendCount, dataX_mk, dataY_mk, dataM_mk, dataN_mk]
    rw [show (x:ℚ) + 1 + (y:ℚ) * (n:ℚ) / ((m:ℚ) + (n:ℚ)) = ((x:ℚ) + c) + 1 by rw [hc]; ring]
    rw [jsRound, jsRound, show ((x:ℚ) + c) + 1 + 1/2 = ((x:ℚ) + c + 1/2) + 1 by ring,
      Int.floor_add_one]
  set r : ℤ := jsRound ((x:ℚ) + c) with hrdef
  have hr0 : 0 ≤ r := by
    rw [hrdef, jsRound]
    apply Int.le_floor.mpr
    push_cast
    linarith
  have hrle : (r:ℚ) ≤ (x:ℚ) + (y:ℚ) := by
    have hlt : r < (x:ℤ) + (y:ℤ) + 1 := by
      rw [hrdef, jsRound]
      apply Int.floor_lt.mpr
      push_cast
      linarith
    have : r ≤ (x:ℤ) + (y:ℤ) := by omega
    exact_mod_cast this
  rw [primaryRadio, primaryRadio, hr1, hr2, totalCount996, totalCount996,
    dataY_mk, dataY_mk, dataX_mk, dataX_mk]
  rcases Nat.eq_zero_or_pos (y + x) with hyx0 | hyxpos
  · have hy0 : (y:ℚ) = 0 := by exact_mod_cast Nat.eq_zero_of_add_eq_zero_right hyx0
    have hx0 : (x:ℚ) = 0 := by exact_mod_cast Nat.eq_zero_of_add_eq_zero_left hyx0
    rw [hy0, hx0]
    apply jsCeil_mono
    rw [show ((0:ℚ) + 0) = 0 by norm_num, div_zero, zero_mul,
      show ((0:ℚ) + (0 + 1)) = 1 by norm_num, div_one]
    have : (0:ℚ) ≤ ((r + 1 : ℤ):ℚ) := by exact_mod_cast (by omega : (0:ℤ) ≤ r + 1)
    linarith
  · have hden : (0:ℚ) < (y:ℚ) + (x:ℚ) := by exact_mod_cast hyxpos
    apply jsCeil_mono
    have key : (r:ℚ) / ((y:ℚ) + (x:ℚ)) ≤ ((r:ℚ) + 1) / ((y:ℚ) + ((x:ℚ) + 1)) := by
      rw [div_le_div_iff hden (by linarith)]
      have hrq : (0:ℚ) ≤ (r:ℚ) := by exact_mod_cast hr0
      nlinarith
    have : ((r:ℚ) + 1) = (((r + 1 : ℤ)):ℚ) := by push_cast; ring
    rw [this] at key
    have := mul_le_mul_of_nonneg_right key (by norm_num : (0:ℚ) ≤ 100)
    linarith

theorem primaryRadio_mono (y m n : ℕ) (hd : List TimeCount) (hmn : 0 < m + n)
    (x₁ x₂ : ℕ) (hx : x₁ ≤ x₂) :
    primaryRadio (mkWorkTimeData (y:ℚ) (x₁:ℚ) (m:ℚ) (n:ℚ) hd)
      ≤ primaryRadio (mkWorkTimeData (y:ℚ) (x₂:ℚ) (m:ℚ) (n:ℚ) hd) := by
  obtain ⟨k, rfl⟩ := Nat.exists_eq_add_of_le hx
  induction k with
  | zero => simp
  | succ k ih =>
    refine le_trans (ih (by omega)) ?_
    have hstep := primaryRadio_step y (x₁ + k) m n hd hmn
    rwa [show ((x₁ + k : ℕ):ℚ) + 1 = ((x₁ + (k + 1) : ℕ):ℚ) by push_cast; ring] at hstep

/-- For positive totals the substituted under-saturation ratio depends only
on the bucket count, not the total (the average cancels). -/
theorem getUn996Radio_indep (hd : List TimeCount) (t₁ t₂ : ℚ)
    (h₁ : 0 < t₁) (h₂ : 0 < t₂) : getUn996Radio hd t₁ = getUn996Radio hd t₂ := by
  rcases Nat.eq_zero_or_pos hd.length with h0 | hpos
  · rw [getUn996Radio, getUn996Radio, h0]
    norm_num
  · rw [getUn996Radio_eq hd t₁ h₁ (Nat.pos_iff_ne_zero.mp hpos),
      getUn996Radio_eq hd t₂ h₂ (Nat.pos_iff_ne_zero.mp hpos)]

theorem overTimeRadio996_mono (y m n : ℕ) (hd : List TimeCount) (x₁ x₂ : ℕ)
    (hx : x₁ ≤ x₂) (hmn : 0 < m + n) (hxy : 0 < x₁ + y) :
    overTimeRadio996 (mkWorkTimeData (y:ℚ) (x₁:ℚ) (m:ℚ) (n:ℚ) hd)
      ≤ overTimeRadio996 (mkWorkTimeData (y:ℚ) (x₂:ℚ) (m:ℚ) (n:ℚ) hd) := by
  have ht₁ : (0:ℚ) < (y:ℚ) + (x₁:ℚ) := by
    have : (0:ℚ) < ((x₁ + y : ℕ):ℚ) := by exact_mod_cast hxy
    push_cast at this; linarith
  have ht₂ : (0:ℚ) < (y:ℚ) + (x₂:ℚ) := by
    have hx2y : 0 < x₂ + y := by omega
    have : (0:ℚ) < ((x₂ + y : ℕ):ℚ) := by exact_mod_cast hx2y
    push_cast at this; linarith
  by_cases h₁ : primaryRadio (mkWorkTimeData (y:ℚ) (x₁:ℚ) (m:ℚ) (n:ℚ) hd) = 0 ∧ hd.length < 9
  · rw [overTimeRadio996_mk, if_pos h₁]
    by_cases h₂ : primaryRadio (mkWorkTimeData (y:ℚ) (x₂:ℚ) (m:ℚ) (n:ℚ) hd) = 0 ∧ hd.length < 9
    · rw [overTimeRadio996_mk, if_pos h₂]
      exact le_of_eq (getUn996Radio_indep hd _ _ ht₁ ht₂)
    · rw [overTimeRadio996_mk, if_neg h₂]
      have hneg := getUn996Radio_neg hd _ ht₁ h₁.2
      have hpos := primaryRadio_nonneg y x₂ m n hd hmn
      omega
  · rw [overTimeRadio996_mk, if_neg h₁]
    by_cases h₂ : primaryRadio (mkWorkTimeData (y:ℚ) (x₂:ℚ) (m:ℚ) (n:ℚ) hd) = 0 ∧ hd.length < 9
    · exfalso
      have hm := primaryRadio_mono y m n hd hmn x₁ x₂ hx
      have hn := primaryRadio_nonneg y x₁ m n hd hmn
      exact h₁ ⟨by omega, h₂.2⟩
    · rw [overTimeRadio996_mk, if_neg h₂]
      exact primaryRadio_mono y m n hd hmn x₁ x₂ hx

/-- C9: with the normal-hour count `y`, the weekday/weekend counts `m`/`n`
and the hour histogram held fixed, increasing the overtime-hour commit
count never decreases `index996`, including across the switch from the
under-saturation branch to the primary branch. -/
theorem index996_monotone (y m n : ℕ) (hd : List TimeCount) (x₁ x₂ : ℕ)
    (hx : x₁ ≤ x₂) (hmn : 0 < m + n) (hxy : 0 < x₁ + y) :
    (calculate996Index (mkWorkTimeData (y:ℚ) (x₁:ℚ) (m:ℚ) (n:ℚ) hd)).index996
      ≤ (calculate996Index (mkWorkTimeData (y:ℚ) (x₂:ℚ) (m:ℚ) (n:ℚ) hd)).index996 := by
  have h := overTimeRadio996_mono y m n hd x₁ x₂ hx hmn hxy
  show overTimeRadio996 _ * 3 ≤ overTimeRadio996 _ * 3
  omega

/-- Witness for C9: `y=10, m=10, n=0`, one active bucket, `x` from 0 to 5 —
the index moves from the under-saturation branch to the primary branch
without decreasing. -/
theorem index996_monotone_witness :
    0 ≤ 5 ∧ 0 < 10 + 0 ∧ 0 < 0 + 10 ∧
    (calculate996Index (mkWorkTimeData ((10:ℕ):ℚ) ((0:ℕ):ℚ) ((10:ℕ):ℚ) ((0:ℕ):ℚ)
        [⟨"9", 10⟩])).index996
      ≤ (calculate996Index (mkWorkTimeData ((10:ℕ):ℚ) ((5:ℕ):ℚ) ((10:ℕ):ℚ) ((0:ℕ):ℚ)
        [⟨"9", 10⟩])).index996 :=
  ⟨by norm_num, by norm_num, by norm_num,
    index996_monotone 10 10 0 [⟨"9", 10⟩] 0 5 (by norm_num) (by norm_num) (by norm_num)⟩

/-- An hour range, `{ startHour, endHour }` in the source. -/
structure HourRange where
  startHour : ℚ
  endHour : ℚ
  deriving DecidableEq, Repr

/-- `WorkTimeDetectionResult` from `src/types/git-types.ts`. -/
structure WorkTimeDetectionResult where
  startHour : ℚ
  endHour : ℚ
  isReliable : Bool
  sampleCount : ℤ
  detectionMethod : String
  confidence : ℚ
  startHourRange : HourRange
  endHourRange : HourRange
  endDetectionMethod : String
  deriving DecidableEq, Repr

/-- `WorkTimeAnalyzer.isWorkingHour`: a clock hour counts as normal work
iff its minute mark lies in `[start, max(start, min(end, start+9))·60)`
minutes (`STANDARD_WORK_HOURS = 9`). -/
def isWorkingHour (hour : ℚ) (detection : WorkTimeDetectionResult) : Bool :=
  let hourStartMinutes := hour * 60
  let startMinutes := detection.startHour * 60
  let cappedEndHour := min detection.endHour (detection.startHour + 9)
  let endMinutes := max startMinutes (cappedEndHour * 60)
  decide (startMinutes ≤ hourStartMinutes) && decide (hourStartMinutes < endMinutes)

/-- C3: `isWorkingHour h d` holds iff `h ∈ [startHour, min(endHour,
startHour+9))`, and consequently at most 9 of the 24 hour buckets are ever
classified as normal work. -/
theorem isWorkingHour_iff_and_card (d : WorkTimeDetectionResult) :
    (∀ h : ℚ, isWorkingHour h d = true ↔
        d.startHour ≤ h ∧ h < min d.endHour (d.startHour + 9))
    ∧ ((Finset.range 24).filter (fun k : ℕ => isWorkingHour (k : ℚ) d = true)).card ≤ 9 := by
  have hiff : ∀ h : ℚ, isWorkingHour h d = true ↔
      d.startHour ≤ h ∧ h < min d.endHour (d.startHour + 9) := by
    intro h
    rw [isWorkingHour]
    simp only [Bool.and_eq_true, decide_eq_true_eq]
    rcases le_total d.startHour (min d.endHour (d.startHour + 9)) with hsc | hcs
    · rw [max_eq_right (mul_le_mul_of_nonneg_right hsc (by norm_num))]
      constructor
      · rintro ⟨h1, h2⟩
        exact ⟨by linarith, by linarith⟩
      · rintro ⟨h1, h2⟩
        exact ⟨by linarith, by linarith⟩
    · rw [max_eq_left (mul_le_mul_of_nonneg_right hcs (by norm_num))]
      constructor
      · rintro ⟨h1, h2⟩
        exact absurd h2 (by linarith)
      · rintro ⟨h1, h2⟩
        have : h < d.startHour := lt_of_lt_of_le h2 hcs
        exact absurd h1 (by linarith)
  refine ⟨hiff, ?_⟩
  have hsub : ∀ k : ℕ,
      k ∈ (Finset.range 24).filter (fun k : ℕ => isWorkingHour (k : ℚ) d = true) →
      (k : ℤ) ∈ Finset.Icc ⌈d.startHour⌉ (⌈d.startHour⌉ + 8) := by
    intro k hk
    rw [Finset.mem_filter] at hk
    obtain ⟨hlo, hhi⟩ := (hiff (k : ℚ)).mp hk.2
    rw [Finset.mem_Icc]
    constructor
    · exact_mod_cast Int.ceil_le.mpr (by exact_mod_cast hlo)
    · have h9 : (k : ℚ) < d.startHour + 9 := lt_of_lt_of_le hhi (min_le_right _ _)
      have hceil : d.startHour ≤ (⌈d.startHour⌉ : ℚ) := Int.le_ceil _
      have : (k : ℚ) < ((⌈d.startHour⌉ + 9 : ℤ) : ℚ) := by push_cast; linarith
      have hlt : (k : ℤ) < ⌈d.startHour⌉ + 9 := by exact_mod_cast this
      omega
  calc ((Finset.range 24).filter (fun k : ℕ => isWorkingHour (k : ℚ) d = true)).card
      ≤ (Finset.Icc ⌈d.startHour⌉ (⌈d.startHour⌉ + 8)).card := by
        apply Finset.card_le_card_of_injOn (fun k : ℕ => (k : ℤ)) hsub
        intro a _ b _ hab
        simpa using hab
    _ = 9 := by
        rw [Int.card_Icc]
        omega

/-- `ProjectType` enum from the project classifier. -/
inductive ProjectType where
  | corporate
  | open_source
  | uncertain
  deriving DecidableEq, Repr

/-- The four boolean regularity checks of `detectWorkTimeRegularity`. -/
structure RegularityDetails where
  morningUptrend : Bool
  afternoonPeak : Bool
  eveningDowntrend : Bool
  nightLowActivity : Bool
  deriving DecidableEq, Repr

/-- The `workTimeRegularity` dimension consumed by `makeDecision`. -/
structure WorkTimeRegularity where
  score : ℚ
  description : String
  details : RegularityDetails
  deriving DecidableEq, Repr

/-- The `weekendActivity` dimension consumed by `makeDecision`. -/
structure WeekendActivity where
  ratio : ℚ
  description : String
  deriving DecidableEq, Repr

/-- The `moonlightingPattern` dimension consumed by `makeDecision`. -/
structure MoonlightingPattern where
  isActive : Bool
  eveningToMorningRatio : ℚ
  nightRatio : ℚ
  description : String
  deriving DecidableEq, Repr

/-- The record `makeDecision` returns. -/
structure Decision where
  projectType : ProjectType
  confidence : ℤ
  reasoning : String
  deriving DecidableEq, Repr

/-- Rendering of a JS number inside a template string. JS's decimal
formatting is abbreviated to the rational's canonical form here; no theorem
below depends on the rendered text. -/
def jsNumToString (q : ℚ) : String :=
  if q.den = 1 then toString q.num else toString q.num ++ "/" ++ toString q.den

/-- `(q).toFixed(1)` in the reasoning strings (same caveat as
`jsNumToString`). -/
def jsToFixed1 (q : ℚ) : String := jsNumToString ((jsRound (q * 10) : ℚ) / 10)

/-- `ProjectClassifier.makeDecision`: two short-circuit rules (≥50
contributors; regularity ≤ 25), then the weighted community-score
fallback. -/
def makeDecision (regularity : WorkTimeRegularity) (weekend : WeekendActivity)
    (moonlighting : MoonlightingPattern) (contributorsCount : ℕ) : Decision :=
  if 50 ≤ contributorsCount then
    { projectType := ProjectType.open_source
      confidence := min 95 ((70 + contributorsCount / 10 : ℕ) : ℤ)
      reasoning := s!"貢獻者數量众多 ({contributorsCount} 人)，典型的開源專案特征" }
  else if regularity.score ≤ 25 then
    { projectType := ProjectType.open_source
      confidence := 90
      reasoning := "工作時間完全無規律 ("
        ++ jsNumToString regularity.score ++ "/100)，典型的開源專案特征" }
  else
    let regPart : ℤ × List String :=
      if regularity.score < 30 then
        (60, ["工作時間規律性極低 (" ++ jsNumToString regularity.score ++ "/100)"])
      else if regularity.score < 50 then
        (40, ["工作時間規律性低 (" ++ jsNumToString regularity.score ++ "/100)"])
      else if regularity.score < 75 then
        (20, ["工作時間規律性中等 (" ++ jsNumToString regularity.score ++ "/100)"])
      else (0, [])
    let contribPart : ℤ × List String :=
      if 20 ≤ contributorsCount ∧ contributorsCount < 50 then
        (20, [s!"貢獻者較多 ({contributorsCount} 人)"])
      else if 10 ≤ contributorsCount ∧ contributorsCount < 20 then
        (10, [s!"貢獻者數量中等 ({contributorsCount} 人)"])
      else (0, [])
    let weekendPart : ℤ × List String :=
      if (30 : ℚ) / 100 ≤ weekend.ratio then
        (30, ["週末活躍度高 (" ++ jsToFixed1 (weekend.ratio * 100) ++ "%)"])
      else if (20 : ℚ) / 100 ≤ weekend.ratio then
        (20, ["週末活躍度較高 (" ++ jsToFixed1 (weekend.ratio * 100) ++ "%)"])
      else if (15 : ℚ) / 100 ≤ weekend.ratio then
        (10, ["週末活躍度中等 (" ++ jsToFixed1 (weekend.ratio * 100) ++ "%)"])
      else (0, [])
    let moonPart : ℤ × List String :=
      if moonlighting.isActive then (20, ["晚上提交量超過白天"]) else (0, [])
    let ossScore := regPart.1 + contribPart.1 + weekendPart.1 + moonPart.1
    let reasons := regPart.2 ++ contribPart.2 ++ weekendPart.2 ++ moonPart.2
    if 60 ≤ ossScore then
      { projectType := ProjectType.open_source
        confidence := jsRound (min 95 (50 + (ossScore : ℚ) / 2))
        reasoning := "開源專案特征明顯：" ++ String.intercalate "；" reasons }
    else if 40 ≤ ossScore then
      { projectType := ProjectType.uncertain
        confidence := jsRound 50
        reasoning := "專案特征不明确：" ++ String.intercalate "；" reasons }
    else
      { projectType := ProjectType.corporate
        confidence := jsRound (min 95 (80 - (ossScore : ℚ)))
        reasoning := "符合公司專案特征" }

/-- C8: with 50 or more contributors the classifier short-circuits to the
community/open-source type regardless of the other three dimensions, with
confidence `min(95, 70 + ⌊count/10⌋)`. -/
theorem makeDecision_contributors (regularity : WorkTimeRegularity)
    (weekend : WeekendActivity) (moonlighting : MoonlightingPattern)
    (c : ℕ) (hc : 50 ≤ c) :
    (makeDecision regularity weekend moonlighting c).projectType = ProjectType.open_source
      ∧ (makeDecision regularity weekend moonlighting c).confidence
          = min 95 ((70 + c / 10 : ℕ) : ℤ) := by
  rw [makeDecision, if_pos hc]
  exact ⟨rfl, rfl⟩

/-- Witness for C8 at the spec's Example C: 60 contributors (regularity
score 70, weekend ratio 1/2, moonlighting active) give the open-source
type with confidence 76. -/
theorem makeDecision_contributors_witness :
    50 ≤ 60
      ∧ (makeDecision ⟨70, "", ⟨true, true, true, false⟩⟩ ⟨1/2, ""⟩
          ⟨true, 1, 1/2, ""⟩ 60).projectType = ProjectType.open_source
      ∧ (makeDecision ⟨70, "", ⟨true, true, true, false⟩⟩ ⟨1/2, ""⟩
          ⟨true, 1, 1/2, ""⟩ 60).confidence = 76 := by
  have h := makeDecision_contributors ⟨70, "", ⟨true, true, true, false⟩⟩ ⟨1/2, ""⟩
    ⟨true, 1, 1/2, ""⟩ 60 (by norm_num)
  refine ⟨by norm_num, h.1, ?_⟩
  rw [h.2]
  decide

/-- `DailyCommitHours` from `src/types/git-types.ts`: a calendar day and
the set of distinct hours with commits (`Set<number>` in the source). -/
structure DailyCommitHours where
  date : String
  hours : Finset ℕ
  deriving DecidableEq

/-- `WeekendOvertimeDistribution` from `src/types/git-types.ts`. -/
structure WeekendOvertimeDistribution where
  saturdayDays : ℕ
  sundayDays : ℕ
  casualFixDays : ℕ
  realOvertimeDays : ℕ
  deriving DecidableEq, Repr

/-- One iteration of the loop in `OvertimeAnalyzer.calculateWeekendOvertime`.
`getDay` stands for the external `new Date(date).getDay()` (0 = Sunday,
6 = Saturday) and `isHoliday` for the awaited `checker.isHolidayBatch`
result of the date (the holiday-aware non-workday check). A day that is no
holiday is skipped; otherwise its distinct-active-hour count decides real
overtime (`REAL_OVERTIME_THRESHOLD = 3`) versus casual fix, and the day is
tallied under Saturday when `getDay date = 6`, under Sunday when
`getDay date = 0`, and — the non-weekend statutory-holiday branch — again
under Saturday otherwise. -/
def weekendOvertimeStep (getDay : String → ℕ) (isHoliday : String → Bool)
    (acc : WeekendOvertimeDistribution) (item : DailyCommitHours) :
    WeekendOvertimeDistribution :=
  if !isHoliday item.date then acc
  else
    let dayOfWeek := getDay item.date
    let commitHours := item.hours.card
    let isRealOvertime := 3 ≤ commitHours
    let bump := fun (a : WeekendOvertimeDistribution) =>
      if isRealOvertime then { a with realOvertimeDays := a.realOvertimeDays + 1 }
      else { a with casualFixDays := a.casualFixDays + 1 }
    if dayOfWeek = 6 then bump { acc with saturdayDays := acc.saturdayDays + 1 }
    else if dayOfWeek = 0 then bump { acc with sundayDays := acc.sundayDays + 1 }
    else bump { acc with saturdayDays := acc.saturdayDays + 1 }

/-- `OvertimeAnalyzer.calculateWeekendOvertime` (holiday-checker path; the
`catch` fallback `calculateWeekendOvertimeBasic` is the same loop with
`isHoliday` replaced by the plain Saturday/Sunday test). -/
def calculateWeekendOvertime (getDay : String → ℕ) (isHoliday : String → Bool)
    (dailyCommitHours : List DailyCommitHours) : WeekendOvertimeDistribution :=
  dailyCommitHours.foldl (weekendOvertimeStep getDay isHoliday) ⟨0, 0, 0, 0⟩

theorem weekendOvertimeStep_fields (gd : String → ℕ) (ih : String → Bool)
    (acc : WeekendOvertimeDistribution) (d : DailyCommitHours) :
    (weekendOvertimeStep gd ih acc d).realOvertimeDays
        = acc.realOvertimeDays
          + (if ih d.date && decide (3 ≤ d.hours.card) then 1 else 0)
      ∧ (weekendOvertimeStep gd ih acc d).casualFixDays
        = acc.casualFixDays
          + (if ih d.date && decide (d.hours.card < 3) then 1 else 0)
      ∧ (weekendOvertimeStep gd ih acc d).sundayDays
        = acc.sundayDays
          + (if ih d.date && decide (gd d.date = 0) then 1 else 0)
      ∧ (weekendOvertimeStep gd ih acc d).saturdayDays
        = acc.saturdayDays
          + (if ih d.date && decide (gd d.date ≠ 0) then 1 else 0) := by
  rw [weekendOvertimeStep]
  by_cases hh : ih d.date
  · by_cases hreal : 3 ≤ d.hours.card
    · by_cases h6 : gd d.date = 6
      · simp [hh, hreal, h6, Nat.not_lt_of_le hreal]
      · by_cases h0 : gd d.date = 0
        · simp [hh, hreal, h6, h0, Nat.not_lt_of_le hreal]
        · simp [hh, hreal, h6, h0, Nat.not_lt_of_le hreal]
    · have hlt : d.hours.card < 3 := Nat.lt_of_not_le hreal
      by_cases h6 : gd d.date = 6
      · simp [hh, hreal, h6, hlt]
      · by_cases h0 : gd d.date = 0
        · simp [hh, hreal, h6, h0, hlt]
        · simp [hh, hreal, h6, h0, hlt]
  · have hh' : ih d.date = false := Bool.not_eq_true _ ▸ Bool.of_not_eq_true hh
    simp [hh']

theorem weekendOvertime_foldl (gd : String → ℕ) (ih : String → Bool)
    (days : List DailyCommitHours) : ∀ acc : WeekendOvertimeDistribution,
    (days.foldl (weekendOvertimeStep gd ih) acc).realOvertimeDays
        = acc.realOvertimeDays
          + (days.filter (fun d => ih d.date && decide (3 ≤ d.hours.card))).length
      ∧ (days.foldl (weekendOvertimeStep gd ih) acc).casualFixDays
        = acc.casualFixDays
          + (days.filter (fun d => ih d.date && decide (d.hours.card < 3))).length
      ∧ (days.foldl (weekendOvertimeStep gd ih) acc).sundayDays
        = acc.sundayDays
          + (days.filter (fun d => ih d.date && decide (gd d.date = 0))).length
      ∧ (days.foldl (weekendOvertimeStep gd ih) acc).saturdayDays
        = acc.saturdayDays
          + (days.filter (fun d => ih d.date && decide (gd d.date ≠ 0))).length := by
  induction days with
  | nil => intro acc; simp
  | cons d rest ihrest =>
    intro acc
    rw [List.foldl_cons]
    obtain ⟨h1, h2, h3, h4⟩ := ihrest (weekendOvertimeStep gd ih acc d)
    obtain ⟨s1, s2, s3, s4⟩ := weekendOvertimeStep_fields gd ih acc d
    refine ⟨?_, ?_, ?_, ?_⟩
    · rw [h1, s1, List.filter_cons]
      split_ifs with hp <;> simp [hp] <;> omega
    · rw [h2, s2, List.filter_cons]
      split_ifs with hp <;> simp [hp] <;> omega
    · rw [h3, s3, List.filter_cons]
      split_ifs with hp <;> simp [hp] <;> omega
    · rw [h4, s4, List.filter_cons]
      split_ifs with hp <;> simp [hp] <;> omega

/-- C7 (amended): every holiday day (holiday-aware check) is classified by
its distinct-active-hour count — ≥3 distinct hours makes a real-overtime
day, fewer a quick-fix day — and the per-day tallies are: Sunday for
holidays with day-of-week 0, Saturday for every other holiday, weekend or
not (there is no separate tally for non-weekend holidays). -/
theorem calculateWeekendOvertime_counts (gd : String → ℕ) (ih : String → Bool)
    (days : List DailyCommitHours) :
    (calculateWeekendOvertime gd ih days).realOvertimeDays
        = (days.filter (fun d => ih d.date && decide (3 ≤ d.hours.card))).length
      ∧ (calculateWeekendOvertime gd ih days).casualFixDays
        = (days.filter (fun d => ih d.date && decide (d.hours.card < 3))).length
      ∧ (calculateWeekendOvertime gd ih days).sundayDays
        = (days.filter (fun d => ih d.date && decide (gd d.date = 0))).length
      ∧ (calculateWeekendOvertime gd ih days).saturdayDays
        = (days.filter (fun d => ih d.date && decide (gd d.date ≠ 0))).length := by
  have h := weekendOvertime_foldl gd ih days ⟨0, 0, 0, 0⟩
  rw [calculateWeekendOvertime]
  refine ⟨?_, ?_, ?_, ?_⟩
  · rw [h.1]; simp
  · rw [h.2.1]; simp
  · rw [h.2.2.1]; simp
  · rw [h.2.2.2]; simp

/-- C7 counterexample: a non-weekend holiday (day-of-week 1, a Monday) with
2 distinct active hours is tallied as `saturdayDays = 1` and as a quick-fix
day — non-weekend holidays are not tallied separately but folded into the
Saturday count. -/
theorem calculateWeekendOvertime_holiday_not_separate :
    calculateWeekendOvertime (fun _ => 1) (fun _ => true)
        [⟨"2024-01-01", {10, 11}⟩]
      = ⟨1, 0, 1, 0⟩
    ∧ (fun (_ : String) => (1 : ℕ)) "2024-01-01" ≠ 6 := by
  constructor
  · rfl
  · decide

/-- Insertion step of the ascending sort that models
`[...samples].sort((a, b) => a - b)`. -/
def insertAsc (x : ℚ) : List ℚ → List ℚ
  | [] => [x]
  | y :: ys => if x ≤ y then x :: y :: ys else y :: insertAsc x ys

/-- Ascending sort of the samples (`[...samples].sort((a, b) => a - b)`). -/
def sortAsc : List ℚ → List ℚ
  | [] => []
  | x :: xs => insertAsc x (sortAsc xs)

/-- `WorkTimeAnalyzer.calculateQuantile`: the order statistic at index
`Math.floor((sorted.length - 1) * quantile)` of the ascending-sorted
samples — no interpolation — with the fallback for empty samples or an
out-of-range index (`undefined`; `ℚ` has no `NaN`, so the source's
`Number.isNaN` test has no counterpart). -/
def calculateQuantile (samples : List ℚ) (quantile : ℚ) (fallback : ℚ) : ℚ :=
  if samples = [] then fallback
  else
    let sorted := sortAsc samples
    let index := (jsFloor (((sorted.length : ℚ) - 1) * quantile)).toNat
    match sorted.get? index with
    | none => fallback
    | some v => v

/-- `WorkTimeAnalyzer.roundDownToHalfHour`. -/
def roundDownToHalfHour (minutes : ℚ) : ℚ := (jsFloor (minutes / 30) : ℚ) * 30

/-- `MIN_VALID_MINUTES = 5 * 60` (band lower bound, 05:00). -/
def MIN_VALID_MINUTES : ℚ := 5 * 60

/-- `MAX_VALID_MINUTES = 12 * 60` (band upper bound, 12:00). -/
def MAX_VALID_MINUTES : ℚ := 12 * 60

/-- `WorkTimeAnalyzer.buildStartHourRange`: clamp both quantiles to the
05:00–12:00 band, round down to 30-minute marks (forcing the upper at
least 30 minutes above the lower), cap the width at 60 minutes and at the
band end, and convert to hours. -/
def buildStartHourRange (lowerMinutes upperMinutes : ℚ) : HourRange :=
  let boundedLower := max MIN_VALID_MINUTES (min lowerMinutes MAX_VALID_MINUTES)
  let boundedUpper := max MIN_VALID_MINUTES (min upperMinutes MAX_VALID_MINUTES)
  let sanitizedLower := roundDownToHalfHour boundedLower
  let sanitizedUpper := roundDownToHalfHour (max boundedUpper (sanitizedLower + 30))
  let start := min sanitizedLower sanitizedUpper
  let endMinutes := max sanitizedUpper (start + 30)
  let endCapped := min (min endMinutes (start + 60)) MAX_VALID_MINUTES
  ⟨start / 60, endCapped / 60⟩

/-- The start-range portion of `WorkTimeAnalyzer.detectWorkingHours`
(the 10th/20th-percentile window over the filtered daily-earliest minutes,
with `defaultMinutes = 9 * 60`), returning the range and the detection
method it sets. -/
def detectStartRange (minutesSamples : List ℚ) : HourRange × String :=
  let defaultMinutes : ℚ := 9 * 60
  if 0 < minutesSamples.length then
    let lowerQuantile := calculateQuantile minutesSamples 0.1 defaultMinutes
    let upperQuantile := calculateQuantile minutesSamples 0.2 (lowerQuantile + 60)
    (buildStartHourRange lowerQuantile upperQuantile, "quantile-window")
  else
    (buildStartHourRange defaultMinutes (defaultMinutes + 30), "default")

/-- The spec's percentile reading: linear interpolation between adjacent
order statistics. This definition follows the spec's words and exists only
to be compared with the source's `calculateQuantile`. -/
def specInterpQuantile (samples : List ℚ) (quantile : ℚ) : ℚ :=
  let sorted := sortAsc samples
  let pos := ((sorted.length : ℚ) - 1) * quantile
  let lo := (jsFloor pos).toNat
  let hi := (jsCeil pos).toNat
  let vlo := sorted.getD lo 0
  let vhi := sorted.getD hi 0
  vlo + (pos - (jsFloor pos : ℚ)) * (vhi - vlo)

theorem roundDownToHalfHour_le (x : ℚ) : roundDownToHalfHour x ≤ x := by
  rw [roundDownToHalfHour, jsFloor]
  have h := Int.floor_le (x / 30)
  have := mul_le_mul_of_nonneg_right h (by norm_num : (0:ℚ) ≤ 30)
  calc (⌊x / 30⌋ : ℚ) * 30 ≤ x / 30 * 30 := this
    _ = x := by field_simp

theorem roundDownToHalfHour_ge (x : ℚ) (k : ℤ) (hb : 30 * (k : ℚ) ≤ x) :
    30 * (k : ℚ) ≤ roundDownToHalfHour x := by
  rw [roundDownToHalfHour, jsFloor]
  have hk : k ≤ ⌊x / 30⌋ := Int.le_floor.mpr (by rw [le_div_iff (by norm_num : (0:ℚ) < 30)]; linarith)
  have : (k : ℚ) ≤ (⌊x / 30⌋ : ℚ) := by exact_mod_cast hk
  linarith

theorem roundDownToHalfHour_mult (x : ℚ) :
    ∃ k : ℤ, roundDownToHalfHour x = 30 * (k : ℚ) := by
  refine ⟨⌊x / 30⌋, ?_⟩
  rw [roundDownToHalfHour, jsFloor]
  ring

/-- Every field of `buildStartHourRange`'s result satisfies the spec's
shape claims: start in the band from 05:00, end at most 12:00, interval
width between 0 and 60 minutes, both bounds on 30-minute marks. -/
theorem buildStartHourRange_props (lower upper : ℚ) :
    5 ≤ (buildStartHourRange lower upper).startHour
    ∧ (buildStartHourRange lower upper).endHour ≤ 12
    ∧ (buildStartHourRange lower upper).startHour ≤ (buildStartHourRange lower upper).endHour
    ∧ (buildStartHourRange lower upper).endHour ≤ (buildStartHourRange lower upper).startHour + 1
    ∧ (∃ k : ℤ, (buildStartHourRange lower upper).startHour * 60 = 30 * (k : ℚ))
    ∧ (∃ k : ℤ, (buildStartHourRange lower upper).endHour * 60 = 30 * (k : ℚ)) := by
  rw [buildStartHourRange, MIN_VALID_MINUTES, MAX_VALID_MINUTES]
  dsimp only
  set bl := max ((5:ℚ) * 60) (min lower (12 * 60)) with hbl
  set bu := max ((5:ℚ) * 60) (min upper (12 * 60)) with hbu
  set sl := roundDownToHalfHour bl with hsl
  set m := max bu (sl + 30) with hm
  set su := roundDownToHalfHour m with hsu
  have hbl_lo : (300:ℚ) ≤ bl := by
    rw [hbl]; exact le_trans (by norm_num) (le_max_left _ _)
  have hbl_hi : bl ≤ 720 := by
    rw [hbl]; exact max_le (by norm_num) (le_trans (min_le_right _ _) (by norm_num))
  have hbu_hi : bu ≤ 720 := by
    rw [hbu]; exact max_le (by norm_num) (le_trans (min_le_right _ _) (by norm_num))
  have hsl_lo : (300:ℚ) ≤ sl := by
    have := roundDownToHalfHour_ge bl 10 (by push_cast; linarith)
    push_cast at this; linarith
  have hsl_le : sl ≤ bl := roundDownToHalfHour_le bl
  have hsl_hi : sl ≤ 720 := le_trans hsl_le hbl_hi
  obtain ⟨ks, hks⟩ := roundDownToHalfHour_mult bl
  rw [← hsl] at hks
  have hsu_ge : sl + 30 ≤ su := by
    have h1 : 30 * ((ks + 1 : ℤ) : ℚ) ≤ m := by
      have : sl + 30 = 30 * ((ks + 1 : ℤ) : ℚ) := by push_cast; linarith [hks]
      rw [← this]; exact le_max_right _ _
    have h2 := roundDownToHalfHour_ge m (ks + 1) h1
    have : sl + 30 = 30 * ((ks + 1 : ℤ) : ℚ) := by push_cast; linarith [hks]
    rw [this]; exact h2
  have hsu_le : su ≤ m := roundDownToHalfHour_le m
  obtain ⟨ku, hku⟩ := roundDownToHalfHour_mult m
  rw [← hsu] at hku
  have hstart : min sl su = sl := min_eq_left (by linarith)
  rw [hstart]
  have hend : max su (sl + 30) = su := max_eq_left hsu_ge
  rw [hend]
  set ec := min (min su (sl + 60)) ((12:ℚ) * 60) with hec
  have h60 : (0:ℚ) < 60 := by norm_num
  have hcap_le_60 : ec ≤ sl + 60 := le_trans (min_le_left _ _) (min_le_right _ _)
  have hcap_le_720 : ec ≤ 720 := by
    have := min_le_right (min su (sl + 60)) ((12:ℚ) * 60)
    rw [← hec] at this
    linarith
  have hcap_ge : sl ≤ ec := by
    rw [hec]
    exact le_min (le_min (by linarith) (by linarith)) (by linarith)
  have p1 : (5:ℚ) ≤ sl / 60 := by
    rw [le_div_iff h60]; linarith
  have p2 : ec / 60 ≤ 12 := by
    rw [div_le_iff h60]; linarith
  have p3 : sl / 60 ≤ ec / 60 := (div_le_div_right h60).mpr hcap_ge
  have p4 : ec / 60 ≤ sl / 60 + 1 := by
    have h1 : ec / 60 ≤ (sl + 60) / 60 := (div_le_div_right h60).mpr hcap_le_60
    have h2 : (sl + 60) / 60 = sl / 60 + 1 := by ring
    linarith [h2 ▸ h1]
  refine ⟨p1, p2, p3, p4, ⟨ks, by field_simp; linarith [hks]⟩, ?_⟩
  rcases min_choice (min su (sl + 60)) ((12:ℚ) * 60) with h | h
  · rw [← hec] at h
    rcases min_choice su (sl + 60) with h2 | h2
    · exact ⟨ku, by rw [h, h2]; field_simp; linarith [hku]⟩
    · exact ⟨ks + 2, by rw [h, h2]; push_cast; field_simp; linarith [hks]⟩
  · rw [← hec] at h
    exact ⟨24, by rw [h]; norm_num⟩

/-- C4 (amended): start-time detection takes the 10th and 20th percentile
of the filtered daily-earliest minutes as the ascending-sort order
statistic at index `floor((n−1)·q)` — no linear interpolation — rounds
both down to 30-minute marks, clamps them to the 05:00–12:00 band, caps
the interval at 60 minutes wide, and reports the interval (whose lower
bound becomes `startHour`); with zero samples the fixed default range
09:00–09:30 is returned. -/
theorem detectStartRange_spec :
    detectStartRange [] = (⟨9, 19/2⟩, "default")
    ∧ ∀ samples : List ℚ, samples ≠ [] →
        (detectStartRange samples).2 = "quantile-window"
        ∧ (detectStartRange samples).1
            = buildStartHourRange (calculateQuantile samples 0.1 (9 * 60))
                (calculateQuantile samples 0.2 (calculateQuantile samples 0.1 (9 * 60) + 60))
        ∧ 5 ≤ (detectStartRange samples).1.startHour
        ∧ (detectStartRange samples).1.endHour ≤ 12
        ∧ (detectStartRange samples).1.startHour ≤ (detectStartRange samples).1.endHour
        ∧ (detectStartRange samples).1.endHour ≤ (detectStartRange samples).1.startHour + 1
        ∧ (∃ k : ℤ, (detectStartRange samples).1.startHour * 60 = 30 * (k : ℚ))
        ∧ (∃ k : ℤ, (detectStartRange samples).1.endHour * 60 = 30 * (k : ℚ)) := by
  constructor
  · have h18 : jsFloor (18:ℚ) = 18 := jsFloor_eq_of _ 18 (by norm_num) (by norm_num)
    have h19 : jsFloor (19:ℚ) = 19 := jsFloor_eq_of _ 19 (by norm_num) (by norm_num)
    rw [detectStartRange]
    norm_num [buildStartHourRange, MIN_VALID_MINUTES, MAX_VALID_MINUTES,
      roundDownToHalfHour, min_def, max_def, h18, h19]
  · intro samples hs
    have hlen : 0 < samples.length := List.length_pos.mpr hs
    have hd : detectStartRange samples
        = (buildStartHourRange (calculateQuantile samples 0.1 (9 * 60))
            (calculateQuantile samples 0.2 (calculateQuantile samples 0.1 (9 * 60) + 60)),
          "quantile-window") := by
      rw [detectStartRange, if_pos hlen]
    obtain ⟨p1, p2, p3, p4, p5, p6⟩ :=
      buildStartHourRange_props (calculateQuantile samples 0.1 (9 * 60))
        (calculateQuantile samples 0.2 (calculateQuantile samples 0.1 (9 * 60) + 60))
    exact ⟨by rw [hd], by rw [hd], by rw [hd]; exact p1, by rw [hd]; exact p2,
      by rw [hd]; exact p3, by rw [hd]; exact p4, by rw [hd]; exact p5, by rw [hd]; exact p6⟩

/-- C4 counterexample: on samples `[300, 720]` the 10th percentile of the
source is the order statistic 300, while linear interpolation between
order statistics gives 342; the resulting `startHour` is 5 (from 300),
not the 5.5 the interpolated value would round to. -/
theorem calculateQuantile_no_interpolation :
    calculateQuantile [300, 720] 0.1 (9 * 60) = 300
    ∧ specInterpQuantile [300, 720] 0.1 = 342
    ∧ ¬(calculateQuantile [300, 720] 0.1 (9 * 60) = specInterpQuantile [300, 720] 0.1)
    ∧ (detectStartRange [300, 720]).1.startHour = 5 := by
  have hf0 : jsFloor ((1:ℚ) / 10) = 0 := jsFloor_eq_of _ 0 (by norm_num) (by norm_num)
  have hf5 : jsFloor ((1:ℚ) / 5) = 0 := jsFloor_eq_of _ 0 (by norm_num) (by norm_num)
  have hc1 : jsCeil ((1:ℚ) / 10) = 1 := jsCeil_eq_of _ 1 (by norm_num) (by norm_num)
  have h10 : jsFloor (10:ℚ) = 10 := jsFloor_eq_of _ 10 (by norm_num) (by norm_num)
  have h11 : jsFloor (11:ℚ) = 11 := jsFloor_eq_of _ 11 (by norm_num) (by norm_num)
  have hq1 : calculateQuantile [300, 720] 0.1 (9 * 60) = 300 := by
    rw [calculateQuantile, if_neg (by simp)]
    norm_num [sortAsc, insertAsc, hf0]
  have hq2 : calculateQuantile [300, 720] 0.2 (300 + 60) = 300 := by
    rw [calculateQuantile, if_neg (by simp)]
    norm_num [sortAsc, insertAsc, hf5]
  have hspec : specInterpQuantile [300, 720] 0.1 = 342 := by
    rw [specInterpQuantile]
    norm_num [sortAsc, insertAsc, hf0, hc1]
  have hb : (buildStartHourRange 300 300).startHour = 5 := by
    rw [buildStartHourRange, MIN_VALID_MINUTES, MAX_VALID_MINUTES]
    norm_num [roundDownToHalfHour, min_def, max_def, h10, h11]
  refine ⟨hq1, hspec, ?_, ?_⟩
  · rw [hq1, hspec]; norm_num
  · rw [detectStartRange, if_pos (by simp)]
    simp only [hq1, hq2]
    exact hb

/-- `String.prototype.split('-')` on the character list of the string. -/
def splitOnDash : List Char → List (List Char)
  | [] => [[]]
  | c :: cs =>
    if c = '-' then [] :: splitOnDash cs
    else
      match splitOnDash cs with
      | [] => [[c]]
      | p :: ps => (c :: p) :: ps

/-- The numeric value of a digit string, most significant first. -/
def digitsToNat (ds : List Char) : ℕ :=
  ds.foldl (fun n c => 10 * n + (c.toNat - Char.toNat '0')) 0

/-- The optional exponent suffix `parseFloat` accepts (`e`/`E`, optional
sign, digits); a malformed exponent is ignored, as in JS. -/
def parseExponent (cs : List Char) : ℤ :=
  match cs with
  | 'e' :: rest | 'E' :: rest =>
    let signAndRest : ℤ × List Char :=
      match rest with
      | '-' :: r => (-1, r)
      | '+' :: r => (1, r)
      | r => (1, r)
    let ds := (signAndRest.2.span Char.isDigit).1
    if ds = [] then 0 else signAndRest.1 * (digitsToNat ds : ℤ)
  | _ => 0

/-- The syntactic phase of JS `parseFloat` on a prefix of the characters:
leading whitespace, optional sign, integer digits, optional `.` and
fraction digits, optional exponent. `none` means no number could be read
(JS `NaN`; the `Infinity` literal is also mapped to `none` — the caller's
range check rejects both the same way). -/
def parseFloatParts (cs0 : List Char) :
    Option (Bool × List Char × List Char × ℤ) :=
  let cs := cs0.dropWhile fun c => c == ' ' || c == '\t' || c == '\n' || c == '\r'
  let signSplit : Bool × List Char :=
    match cs with
    | '-' :: r => (true, r)
    | '+' :: r => (false, r)
    | r => (false, r)
  let ipSplit := signSplit.2.span Char.isDigit
  let fpSplit : List Char × List Char :=
    match ipSplit.2 with
    | '.' :: r => r.span Char.isDigit
    | r => ([], r)
  if ipSplit.1 = [] ∧ fpSplit.1 = [] then none
  else some (signSplit.1, ipSplit.1, fpSplit.1, parseExponent fpSplit.2)

/-- JS `parseFloat` as a rational (`none` = `NaN`). -/
def jsParseFloat (cs : List Char) : Option ℚ :=
  match parseFloatParts cs with
  | none => none
  | some (neg, ip, fp, ex) =>
    some ((if neg then (-1 : ℚ) else 1)
      * ((digitsToNat ip : ℚ) + (digitsToNat fp : ℚ) / (10 : ℚ) ^ fp.length)
      * (10 : ℚ) ^ ex)

/-- `GitParser.parseCustomWorkHours`: parse a manual `"start-end"`
override; malformed input, out-of-range hours and `start ≥ end` throw
(modelled as `Except.error` carrying the message), a valid override yields
the manual detection result with confidence 100. -/
def parseCustomWorkHours (customWorkHours : String) :
    Except String WorkTimeDetectionResult :=
  let parts := splitOnDash customWorkHours.data
  if parts.length ≠ 2 then
    Except.error ("無效的工作時間格式: " ++ customWorkHours
      ++ "，正確格式為 \"9-18\" 或 \"9.5-18.5\"")
  else
    match jsParseFloat (parts.getD 0 []), jsParseFloat (parts.getD 1 []) with
    | some startHour, some endHour =>
      if startHour < 0 ∨ 23 < startHour ∨ endHour < 0 ∨ 24 < endHour then
        Except.error ("無效的工作時間: " ++ customWorkHours
          ++ "，小時必須在 0-23 之間，結束時間可到24")
      else if endHour ≤ startHour then
        Except.error ("無效的工作時間: " ++ customWorkHours
          ++ "，上班時間必須早於下班時間")
      else
        Except.ok
          { startHour := startHour
            endHour := endHour
            isReliable := true
            sampleCount := -1
            detectionMethod := "manual"
            confidence := 100
            startHourRange := ⟨startHour, min endHour (startHour + 1)⟩
            endHourRange := ⟨max startHour (endHour - 1), endHour⟩
            endDetectionMethod := "manual" }
    | _, _ =>
      Except.error ("無效的工作時間: " ++ customWorkHours
        ++ "，小時必須在 0-23 之間，結束時間可到24")

/-- C5: a successful manual override always carries confidence 100 and
detection method `"manual"`; a malformed override (part count ≠ 2 or an
unparsable number) or one with out-of-range hours or `start ≥ end` errors
out instead of returning a result. -/
theorem parseCustomWorkHours_spec :
    (∀ s r, parseCustomWorkHours s = Except.ok r →
        r.confidence = 100 ∧ r.detectionMethod = "manual")
    ∧ (∀ s, (splitOnDash s.data).length ≠ 2 →
        (parseCustomWorkHours s).isOk = false)
    ∧ (∀ s a b, jsParseFloat ((splitOnDash s.data).getD 0 []) = some a →
        jsParseFloat ((splitOnDash s.data).getD 1 []) = some b →
        (a < 0 ∨ 23 < a ∨ b < 0 ∨ 24 < b ∨ b ≤ a) →
        (parseCustomWorkHours s).isOk = false)
    ∧ (∀ s, jsParseFloat ((splitOnDash s.data).getD 0 []) = none →
        (parseCustomWorkHours s).isOk = false) := by
  refine ⟨?_, ?_, ?_, ?_⟩
  · intro s r h
    simp only [parseCustomWorkHours] at h
    by_cases hl : (splitOnDash s.data).length ≠ 2
    · rw [if_pos hl] at h
      exact absurd h (by simp)
    · rw [if_neg hl] at h
      rcases hf1 : jsParseFloat ((splitOnDash s.data).getD 0 []) with _ | a
      · rw [hf1] at h
        exact absurd h (by simp)
      · rcases hf2 : jsParseFloat ((splitOnDash s.data).getD 1 []) with _ | b
        · rw [hf1, hf2] at h
          exact absurd h (by simp)
        · rw [hf1, hf2] at h
          dsimp only at h
          split_ifs at h
          cases h
          exact ⟨rfl, rfl⟩
  · intro s hl
    simp only [parseCustomWorkHours]
    rw [if_pos hl]
    rfl
  · intro s a b ha hb hcond
    by_cases hl : (splitOnDash s.data).length ≠ 2
    · simp only [parseCustomWorkHours]
      rw [if_pos hl]
      rfl
    · simp only [parseCustomWorkHours]
      rw [if_neg hl, ha, hb]
      dsimp only
      by_cases h1 : a < 0 ∨ 23 < a ∨ b < 0 ∨ 24 < b
      · rw [if_pos h1]
        rfl
      · have h2 : b ≤ a := by tauto
        rw [if_neg h1, if_pos h2]
        rfl
  · intro s ha
    by_cases hl : (splitOnDash s.data).length ≠ 2
    · simp only [parseCustomWorkHours]
      rw [if_pos hl]
      rfl
    · simp only [parseCustomWorkHours]
      rw [if_neg hl, ha]
      rcases hf2 : jsParseFloat ((splitOnDash s.data).getD 1 []) with _ | b <;> rfl

/-- Witness for C5: `"9-18"` parses to the manual result with confidence
100; `"9x"` (one part) and `"25-18"` (start hour out of range) error. -/
theorem parseCustomWorkHours_witness :
    (∃ r, parseCustomWorkHours "9-18" = Except.ok r
        ∧ r.confidence = 100 ∧ r.detectionMethod = "manual")
    ∧ (splitOnDash "9x".data).length ≠ 2
    ∧ (parseCustomWorkHours "9x").isOk = false
    ∧ jsParseFloat ((splitOnDash "25-18".data).getD 0 []) = some 25
    ∧ jsParseFloat ((splitOnDash "25-18".data).getD 1 []) = some 18
    ∧ ((25:ℚ) < 0 ∨ 23 < (25:ℚ) ∨ (18:ℚ) < 0 ∨ 24 < (18:ℚ) ∨ (18:ℚ) ≤ 25)
    ∧ (parseCustomWorkHours "25-18").isOk = false := by
  have hsplit : splitOnDash "9-18".data = [['9'], ['1', '8']] := by decide
  have hp1 : parseFloatParts ['9'] = some (false, ['9'], [], 0) := by decide
  have hp2 : parseFloatParts ['1', '8'] = some (false, ['1', '8'], [], 0) := by decide
  have hd9 : digitsToNat ['9'] = 9 := by decide
  have hd18 : digitsToNat ['1', '8'] = 18 := by decide
  have hd25 : digitsToNat ['2', '5'] = 25 := by decide
  have hd0 : digitsToNat [] = 0 := by decide
  have hf9 : jsParseFloat ['9'] = some 9 := by
    simp only [jsParseFloat, hp1, hd9, hd0]
    norm_num
  have hf18 : jsParseFloat ['1', '8'] = some 18 := by
    simp only [jsParseFloat, hp2, hd18, hd0]
    norm_num
  have hok : parseCustomWorkHours "9-18"
      = Except.ok ⟨9, 18, true, -1, "manual", 100, ⟨9, min 18 (9 + 1)⟩,
          ⟨max 9 (18 - 1), 18⟩, "manual"⟩ := by
    simp only [parseCustomWorkHours, hsplit]
    rw [if_neg (by norm_num)]
    simp only [List.getD]
    norm_num [hf9, hf18]
  have hsplit25 : splitOnDash "25-18".data = [['2', '5'], ['1', '8']] := by decide
  have hf25 : jsParseFloat ['2', '5'] = some 25 := by
    have hp : parseFloatParts ['2', '5'] = some (false, ['2', '5'], [], 0) := by decide
    simp only [jsParseFloat, hp, hd25, hd0]
    norm_num
  have ha : jsParseFloat ((splitOnDash "25-18".data).getD 0 []) = some 25 := by
    rw [hsplit25]
    simpa using hf25
  have hb : jsParseFloat ((splitOnDash "25-18".data).getD 1 []) = some 18 := by
    rw [hsplit25]
    simpa using hf18
  refine ⟨⟨_, hok, rfl, rfl⟩, by decide, ?_, ha, hb, by norm_num, ?_⟩
  · exact parseCustomWorkHours_spec.2.1 "9x" (by decide)
  · exact parseCustomWorkHours_spec.2.2.1 "25-18" 25 18 ha hb (by norm_num)

/-- A JavaScript number with its IEEE-754 special values (`-0` is not
distinguished from `0`; the sources below never depend on it). -/
inductive JSNum where
  | nan
  | inf
  | ninf
  | num (q : ℚ)
  deriving DecidableEq, Repr

/-- JS `+` on numbers. -/
def jadd : JSNum → JSNum → JSNum
  | .nan, _ => .nan
  | _, .nan => .nan
  | .inf, .ninf => .nan
  | .ninf, .inf => .nan
  | .inf, _ => .inf
  | _, .inf => .inf
  | .ninf, _ => .ninf
  | _, .ninf => .ninf
  | .num a, .num b => .num (a + b)

/-- JS unary `-`. -/
def jneg : JSNum → JSNum
  | .nan => .nan
  | .inf => .ninf
  | .ninf => .inf
  | .num a => .num (-a)

/-- JS `-` on numbers. -/
def jsub (a b : JSNum) : JSNum := jadd a (jneg b)

/-- JS `*` on numbers. -/
def jmul : JSNum → JSNum → JSNum
  | .nan, _ => .nan
  | _, .nan => .nan
  | .inf, .inf => .inf
  | .inf, .ninf => .ninf
  | .ninf, .inf => .ninf
  | .ninf, .ninf => .inf
  | .inf, .num b => if b = 0 then .nan else if 0 < b then .inf else .ninf
  | .num a, .inf => if a = 0 then .nan else if 0 < a then .inf else .ninf
  | .ninf, .num b => if b = 0 then .nan else if 0 < b then .ninf else .inf
  | .num a, .ninf => if a = 0 then .nan else if 0 < a then .ninf else .inf
  | .num a, .num b => .num (a * b)

/-- JS `/` on numbers: `0/0 = NaN`, `a/0 = ±Infinity` for `a ≠ 0`. -/
def jdiv : JSNum → JSNum → JSNum
  | .nan, _ => .nan
  | _, .nan => .nan
  | .inf, .inf => .nan
  | .inf, .ninf => .nan
  | .ninf, .inf => .nan
  | .ninf, .ninf => .nan
  | .inf, .num b => if 0 ≤ b then .inf else .ninf
  | .ninf, .num b => if 0 ≤ b then .ninf else .inf
  | .num _, .inf => .num 0
  | .num _, .ninf => .num 0
  | .num a, .num b =>
    if b = 0 then (if a = 0 then .nan else if 0 < a then .inf else .ninf)
    else .num (a / b)

/-- JS `Math.round` on a JS number. -/
def jsRoundJ : JSNum → JSNum
  | .nan => .nan
  | .inf => .inf
  | .ninf => .ninf
  | .num q => .num (jsRound q : ℚ)

/-- JS `Math.ceil` on a JS number. -/
def jsCeilJ : JSNum → JSNum
  | .nan => .nan
  | .inf => .inf
  | .ninf => .ninf
  | .num q => .num (jsCeil q : ℚ)

/-- `getUn996Radio` re-expressed over `JSNum` (the histogram enters only
through its length). -/
def getUn996RadioJS (hourDataLen : ℕ) (totalCount : JSNum) : JSNum :=
  let averageCommit := jdiv totalCount (.num hourDataLen)
  let mockTotalCount := jmul averageCommit (.num 9)
  jsub (jsCeilJ (jmul (jdiv totalCount mockTotalCount) (.num 100))) (.num 100)

/-- `calculate996Index` re-expressed over `JSNum` with the four counts
already extracted, to track IEEE special values exactly where the source's
float arithmetic produces them; returns `(overTimeRadio, index996)`. -/
def calculate996IndexJS (y x m n : JSNum) (hourDataLen : ℕ) : JSNum × JSNum :=
  let overTimeAmendCount := jsRoundJ (jadd x (jdiv (jmul y n) (jadd m n)))
  let totalCount := jadd y x
  let overTimeRadio0 := jsCeilJ (jmul (jdiv overTimeAmendCount totalCount) (.num 100))
  let overTimeRadio :=
    if overTimeRadio0 = .num 0 ∧ hourDataLen < 9 then
      getUn996RadioJS hourDataLen totalCount
    else overTimeRadio0
  (overTimeRadio, jmul overTimeRadio (.num 3))

/-- One `(offset, count)` timezone bucket. -/
structure TimezoneCount where
  offset : String
  count : ℚ
  deriving DecidableEq, Repr

/-- `TimezoneData`: descending-sorted timezone buckets plus the total. -/
structure TimezoneData where
  timezones : List TimezoneCount
  totalCommits : ℚ
  deriving DecidableEq, Repr

/-- One entry of `timezoneGroups` in the analysis result. -/
structure TimezoneGroup where
  offset : String
  count : ℚ
  ratio : ℚ
  deriving DecidableEq, Repr

/-- `TimezoneAnalysisResult` (the optional `timezoneGroups` field is
`none` exactly when the source leaves it `undefined`). -/
structure TimezoneAnalysisResult where
  isCrossTimezone : Bool
  crossTimezoneRatio : ℚ
  dominantTimezone : Option String
  dominantRatio : ℚ
  sleepPeriodRatio : ℚ
  confidence : ℚ
  timezoneGroups : Option (List TimezoneGroup)
  deriving DecidableEq, Repr

/-- `CROSS_TIMEZONE_THRESHOLD = 0.01`. -/
def CROSS_TIMEZONE_THRESHOLD : ℚ := 0.01

/-- `SLEEP_RATIO_THRESHOLD = 0.01`. -/
def SLEEP_RATIO_THRESHOLD : ℚ := 0.01

/-- Result record of `calculateTimezoneDiversity`. -/
structure TzDiversity where
  crossTimezoneRatio : ℚ
  dominantTimezone : Option String
  dominantRatio : ℚ
  groups : List TimezoneGroup
  deriving DecidableEq, Repr

/-- `TimezoneAnalyzer.calculateTimezoneDiversity`: dominant share of the
first (largest) timezone bucket, its complement as the cross-timezone
ratio, and the top-5 groups. -/
def calculateTimezoneDiversity (data : TimezoneData) : TzDiversity :=
  match data.timezones with
  | [] => ⟨0, none, 0, []⟩
  | dominantTz :: _ =>
    let dominantRatio := dominantTz.count / data.totalCommits
    ⟨1 - dominantRatio, some dominantTz.offset, dominantRatio,
      (data.timezones.take 5).map fun tz =>
        ⟨tz.offset, tz.count, tz.count / data.totalCommits⟩⟩

/-- JS `parseInt(s, 10)` on a character list (`none` = `NaN`). -/
def jsParseInt (cs0 : List Char) : Option ℤ :=
  let cs := cs0.dropWhile fun c => c == ' ' || c == '\t' || c == '\n' || c == '\r'
  let signSplit : ℤ × List Char :=
    match cs with
    | '-' :: r => (-1, r)
    | '+' :: r => (1, r)
    | r => (1, r)
  let ds := (signSplit.2.span Char.isDigit).1
  if ds = [] then none else some (signSplit.1 * (digitsToNat ds : ℤ))

/-- `TimezoneAnalyzer.aggregateToHourArray`: 24 zero-initialised buckets;
each item's hour is `parseInt(item.time.split(':')[0], 10)` (the prefix of
the label before the first `:`), added when it lies in `[0, 24)`. -/
def aggregateToHourArray (hourData : List TimeCount) : List ℚ :=
  hourData.foldl
    (fun hourCounts item =>
      match jsParseInt (item.time.data.takeWhile fun c => c ≠ ':') with
      | none => hourCounts
      | some hour =>
        if 0 ≤ hour ∧ hour < 24 then
          hourCounts.set hour.toNat (hourCounts.getD hour.toNat 0 + item.count)
        else hourCounts)
    (List.replicate 24 0)

/-- Sum of a 5-hour wrap-around window starting at `start`. -/
def sleepWindowSum (hourCounts : List ℚ) (start : ℕ) : ℚ :=
  (List.range 5).foldl (fun s i => s + hourCounts.getD ((start + i) % 24) 0) 0

/-- `TimezoneAnalyzer.analyzeSleepPeriod`: the minimum-sum 5-hour window
(`minSum` starts at `Infinity`, modelled by the `Option` state; the first
strictly smaller window wins) and its share of the total. -/
def analyzeSleepPeriod (hourData : List TimeCount) : ℚ × List ℕ :=
  let hourCounts := aggregateToHourArray hourData
  let total := hourCounts.foldl (· + ·) 0
  if total = 0 then (0, [])
  else
    match (List.range 24).foldl
        (fun best start =>
          match best with
          | none => some (start, sleepWindowSum hourCounts start)
          | some (bs, bsum) =>
            if sleepWindowSum hourCounts start < bsum then
              some (start, sleepWindowSum hourCounts start)
            else some (bs, bsum))
        none with
    | none => (0, [])
    | some (minStart, minSum) =>
      (minSum / total, (List.range 5).map fun i => (minStart + i) % 24)

/-- `TimezoneAnalyzer.calculateConfidence`: sample-size tiers 30/50/70/85,
+15 capped at 95 when both methods agree, rounded. -/
def calculateConfidence (crossTimezoneRatio minSleepRatio totalCommits : ℚ) : ℚ :=
  let baseConfidence : ℚ :=
    if totalCommits < 50 then 30
    else if totalCommits < 200 then 50
    else if totalCommits < 500 then 70
    else 85
  let boosted :=
    if CROSS_TIMEZONE_THRESHOLD ≤ crossTimezoneRatio
        ∧ SLEEP_RATIO_THRESHOLD ≤ minSleepRatio then
      min 95 (baseConfidence + 15)
    else baseConfidence
  (jsRound boosted : ℚ)

/-- `TimezoneAnalyzer.analyzeTimezone`: the zero-commit default, otherwise
diversity and sleep-window analysis combined by logical OR. -/
def analyzeTimezone (timezoneData : TimezoneData) (hourData : List TimeCount) :
    TimezoneAnalysisResult :=
  if timezoneData.totalCommits = 0 then
    ⟨false, 0, none, 0, 0, 0, none⟩
  else
    let tzDiversity := calculateTimezoneDiversity timezoneData
    let sleep := analyzeSleepPeriod hourData
    let isCrossTimezone :=
      decide (CROSS_TIMEZONE_THRESHOLD ≤ tzDiversity.crossTimezoneRatio)
        || decide (SLEEP_RATIO_THRESHOLD ≤ sleep.1)
    ⟨isCrossTimezone, tzDiversity.crossTimezoneRatio, tzDiversity.dominantTimezone,
      tzDiversity.dominantRatio, sleep.1,
      calculateConfidence tzDiversity.crossTimezoneRatio sleep.1 timezoneData.totalCommits,
      some tzDiversity.groups⟩

/-- C6 (amended): `analyzeTimezone` special-cases `totalCommits = 0` to
the fixed zero/false default, but `calculate996Index` itself has no
division-by-zero guard: on all-zero inputs (`x = y = 0`, `m = n = 0`,
empty histogram) its float arithmetic yields `NaN` for both
`overTimeRadio` and `index996`. -/
theorem analyzeTimezone_zero_default_and_calc996_nan :
    (∀ (tz : List TimezoneCount) (hd : List TimeCount),
        analyzeTimezone ⟨tz, 0⟩ hd = ⟨false, 0, none, 0, 0, 0, none⟩)
    ∧ calculate996IndexJS (JSNum.num 0) (JSNum.num 0) (JSNum.num 0) (JSNum.num 0) 0
        = (JSNum.nan, JSNum.nan) := by
  constructor
  · intro tz hd
    simp [analyzeTimezone]
  · norm_num [calculate996IndexJS, getUn996RadioJS, jadd, jmul, jdiv, jsub, jneg,
      jsRoundJ, jsCeilJ]

/-- C6 counterexample: `calculate996Index` applied to all-zero inputs does
not return a numeric result — both `overTimeRadio` and `index996` are
`NaN` (`round(0 + 0·0/(0+0))` is already `NaN`). -/
theorem calculate996IndexJS_allzero_nan :
    (calculate996IndexJS (JSNum.num 0) (JSNum.num 0) (JSNum.num 0) (JSNum.num 0) 0).1
        = JSNum.nan
    ∧ (calculate996IndexJS (JSNum.num 0) (JSNum.num 0) (JSNum.num 0) (JSNum.num 0) 0).2
        = JSNum.nan := by
  constructor <;>
    norm_num [calculate996IndexJS, getUn996RadioJS, jadd, jmul, jdiv, jsub, jneg,
      jsRoundJ, jsCeilJ]

/-- A calendar date as the `YYYY-MM-DD` date keys carry it. -/
structure SimpleDate where
  year : ℕ
  month : ℕ
  day : ℕ
  deriving DecidableEq, Repr

/-- Gregorian leap-year rule (as JS `Date` implements it). -/
def isLeapYear (y : ℕ) : Bool :=
  (y % 4 == 0 && y % 100 != 0) || y % 400 == 0

/-- Days in a month of the Gregorian calendar. -/
def daysInMonth (y m : ℕ) : ℕ :=
  if m = 2 then (if isLeapYear y then 29 else 28)
  else if m = 4 ∨ m = 6 ∨ m = 9 ∨ m = 11 then 30
  else 31

/-- The previous calendar day: models
`const date = new Date(dateKey + "T00:00:00"); date.setDate(date.getDate() - 1)`
followed by `formatDateKey`. -/
def prevDay (d : SimpleDate) : SimpleDate :=
  if 1 < d.day then ⟨d.year, d.month, d.day - 1⟩
  else if 1 < d.month then ⟨d.year, d.month - 1, daysInMonth d.year (d.month - 1)⟩
  else ⟨d.year - 1, 12, 31⟩

/-- The output of `parseLocalTimestamp` for one retained commit line (the
author/timezone filters and malformed lines are dropped before this
point). -/
structure ParsedCommit where
  dateKey : SimpleDate
  hour : ℕ
  minute : ℕ
  deriving DecidableEq, Repr

/-- `DailyLatestCommit` from `src/types/git-types.ts`; the declared range
of `minutesFromMidnight` is 0–1439. -/
structure DailyLatestCommit where
  date : SimpleDate
  minutesFromMidnight : ℕ
  deriving DecidableEq, Repr

/-- The per-commit effective `(date, minutes)` of the
`getDailyLatestCommits` loop: a commit at 00:00–05:59 is attributed to the
previous day with 24·60 minutes added (the `parsed.hour >= 0` half of the
source's test is vacuous for `ℕ` hours). -/
def effectiveEntry (c : ParsedCommit) : SimpleDate × ℕ :=
  if c.hour < 6 then (prevDay c.dateKey, c.hour * 60 + c.minute + 24 * 60)
  else (c.dateKey, c.hour * 60 + c.minute)

/-- `dailyLatest.get` + conditional `dailyLatest.set`: update the entry in
place when the key exists and the new minutes are strictly larger, append
a new entry otherwise (JS `Map` preserves first-insertion order). -/
def updateLatest : List (SimpleDate × ℕ) → SimpleDate → ℕ → List (SimpleDate × ℕ)
  | [], date, minutes => [(date, minutes)]
  | (d, m) :: rest, date, minutes =>
    if d = date then (d, if m < minutes then minutes else m) :: rest
    else (d, m) :: updateLatest rest date minutes

/-- Date-key order: lexicographic on `(year, month, day)`, which is what
`a.date.localeCompare(b.date)` yields on zero-padded `YYYY-MM-DD` keys. -/
def dateLe (a b : SimpleDate) : Bool :=
  decide (a.year < b.year
    ∨ (a.year = b.year
        ∧ (a.month < b.month ∨ (a.month = b.month ∧ a.day ≤ b.day))))

/-- Insertion step of the final `.sort(...)` on date keys. -/
def insertByDate (x : SimpleDate × ℕ) :
    List (SimpleDate × ℕ) → List (SimpleDate × ℕ)
  | [] => [x]
  | y :: ys => if dateLe x.1 y.1 then x :: y :: ys else y :: insertByDate x ys

/-- The final `.sort((a, b) => a.date.localeCompare(b.date))` (keys are
distinct, so stability is irrelevant). -/
def sortByDate : List (SimpleDate × ℕ) → List (SimpleDate × ℕ)
  | [] => []
  | x :: xs => insertByDate x (sortByDate xs)

/-- `CommitCollector.getDailyLatestCommits`, from the parsed commit lines
onward: fold the per-day-latest map, then emit it sorted by date. -/
def getDailyLatestCommits (commits : List ParsedCommit) : List DailyLatestCommit :=
  let entries := commits.foldl
    (fun m c => updateLatest m (effectiveEntry c).1 (effectiveEntry c).2) []
  (sortByDate entries).map fun e => ⟨e.1, e.2⟩

/-- C10: a commit with local hour in `[0, 6)` is attributed to the
previous calendar day with `minutesFromMidnight = minutes + 1440`; hence a
returned `DailyLatestCommit` can carry `minutesFromMidnight ≥ 1440`
(beyond the documented 0–1439) under a date on which that minute never
occurred — concretely, a commit at 01:40 on 2024-03-01 is returned as
minute 1540 of 2024-02-29. -/
theorem getDailyLatestCommits_dawn_shift :
    (∀ c : ParsedCommit, c.hour < 6 →
        effectiveEntry c = (prevDay c.dateKey, c.hour * 60 + c.minute + 1440)
        ∧ 1440 ≤ (effectiveEntry c).2)
    ∧ getDailyLatestCommits [⟨⟨2024, 3, 1⟩, 1, 40⟩]
        = [⟨⟨2024, 2, 29⟩, 1540⟩] := by
  constructor
  · intro c hc
    rw [effectiveEntry, if_pos hc]
    exact ⟨rfl, by omega⟩
  · decide

/-- Witness for C10 at the commit `2024-03-01 01:40`. -/
theorem getDailyLatestCommits_dawn_shift_witness :
    (⟨⟨2024, 3, 1⟩, 1, 40⟩ : ParsedCommit).hour < 6
    ∧ effectiveEntry ⟨⟨2024, 3, 1⟩, 1, 40⟩ = (prevDay ⟨2024, 3, 1⟩, 1 * 60 + 40 + 1440)
    ∧ 1440 ≤ (effectiveEntry ⟨⟨2024, 3, 1⟩, 1, 40⟩).2 := by
  have h := getDailyLatestCommits_dawn_shift.1 ⟨⟨2024, 3, 1⟩, 1, 40⟩ (by decide)
  exact ⟨by decide, h.1, h.2⟩
